import Mathlib

/-!
Verification of the knusper scripting-language runtime (`src/lib.rs`):
a character-stream lexer (`tokenize`) feeding a single-pass stack-based
evaluator (`InterpreterState::run`).  The Rust code is embedded shallowly:

* Rust `Vec<Value>` used as the operand stack is a `List Value` with the
  top of the stack at the head (Rust pushes/pops at the vector's end).
* `Vec<Value>` payloads of composite values (tuple/block/array bodies and
  delimiter-frame buffers) are `List Value` in vector order, i.e. program
  order; wrapping an operand stack into a composite therefore reverses it.
* Rust `HashMap<String, Value>` is an association list with unique keys;
  `insert` replaces the binding if the key is present and appends otherwise,
  `get` is linear lookup.  All map operations the code performs are
  key-by-key, so the tables' iteration order is immaterial.
* Rust panics (including `Option::unwrap` on `None`) abort the run; the
  embedding returns `Except RunError` where `RunError.unwrapNone` stands for
  an `unwrap` panic and `RunError.panicked msg` for an explicit `panic!`.
  Division or remainder by zero panics in Rust and is mapped to the
  corresponding panic message.
* `i32` values are carried as `Int` and every arithmetic operator reduces
  its result to the two's-complement `i32` range (`wrap32`, the wrapping
  semantics of Rust release builds; debug builds panic on `+ - *` overflow
  instead, so the arithmetic theorems restrict themselves to the
  non-overflowing domain on which both profiles agree).  Division uses
  Rust's truncation-toward-zero convention (`Int.tdiv` / `Int.tmod`);
  division or remainder by zero, and `i32::MIN / -1` or `i32::MIN % -1`,
  panic in every Rust profile and are modelled as panics.  The lexer's
  `parse::<i32>().unwrap()` models its abort on digit runs exceeding
  `i32::MAX`.
* Writes to stdout by `print`/`println` are modelled by an `output` string
  accumulated in the interpreter state (stdout is ambient in Rust, so a
  nested context inherits the parent's output and the parent takes the
  child's final output back, exactly like the shared stream).
* General recursion (function calls, loop bodies, eager array evaluation)
  is bounded by a fuel parameter counting nested-context entries;
  `RunError.outOfFuel` is a modelling artifact, never a behaviour of the
  code, and theorems always supply sufficient fuel.
-/

/-- `Keyword` from `src/lib.rs`. -/
inductive Keyword where
  | Let | Global | Print | PrintLn | Fn | For | If
deriving DecidableEq

/-- `Op` from `src/lib.rs`. -/
inductive Op where
  | Add | Sub | Mul | Div | Mod
  | Assign | AddAssign | SubAssign | MulAssign | DivAssign
  | Invert
  | TupleStart | TupleEnd | BlockStart | BlockEnd | ArrayStart | ArrayEnd
  | CallFn | IndexArray
deriving DecidableEq

/-- `Value` from `src/lib.rs`; the `Fn` struct (`args`, `body`) is inlined
into the constructor. -/
inductive Value where
  | Int (i : Int)
  | Char (c : Char)
  | String (s : String)
  | Ident (name : String)
  | ExtFn (name : String)
  | Operation (op : Op)
  | Keyword (kw : Keyword)
  | Fn (args : List String) (body : List Value)
  | Tuple (vs : List Value)
  | Block (vs : List Value)
  | Array (vs : List Value)
  | None

/-- `Delim` from `src/lib.rs`: an open delimiter frame buffering the tokens
seen since its opening marker, in program order. -/
inductive Delim where
  | Tuple (vs : List Value)
  | Block (vs : List Value)
  | Array (vs : List Value)

/-- Outcome of a run that does not return normally.  `unwrapNone` is a Rust
`unwrap` panic (on a `None` `Option`, or on an `Err` `Result` as in the
lexer's integer parse), `panicked` an explicit `panic!`; `outOfFuel` is the
fuel artifact of the embedding (see module comment). -/
inductive RunError where
  | outOfFuel
  | unwrapNone
  | panicked (msg : String)
deriving DecidableEq

/-- `InterpreterState` from `src/lib.rs`.  `stack` has its top at the head;
`output` models the process's stdout stream. -/
structure InterpreterState where
  stack : List Value
  vars : List (String × Value)
  globals : List (String × Value)
  delims : List Delim
  extFns : List (String × (Value → Value))
  output : String

/-- `HashMap::get` on the association-list model. -/
def lookupTable {α : Type} : List (String × α) → String → Option α
  | [], _ => Option.none
  | (k, v) :: rest, name => if k = name then some v else lookupTable rest name

/-- `HashMap::insert` on the association-list model: replace the binding if
the key is present, append otherwise. -/
def insertTable {α : Type} : List (String × α) → String → α → List (String × α)
  | [], name, v => [(name, v)]
  | (k, w) :: rest, name, v =>
    if k = name then (k, v) :: rest else (k, w) :: insertTable rest name v

/-- `InterpreterState::get_var`: locals first, then globals. -/
def getVar (st : InterpreterState) (name : String) : Option Value :=
  match lookupTable st.vars name with
  | some v => some v
  | Option.none => lookupTable st.globals name

/-- `InterpreterState::add_var`: insert the name into the local table bound
to `Value::None`. -/
def addVar (st : InterpreterState) (name : String) : InterpreterState :=
  { st with vars := insertTable st.vars name Value.None }

/-- `InterpreterState::add_global`. -/
def addGlobal (st : InterpreterState) (name : String) : InterpreterState :=
  { st with globals := insertTable st.globals name Value.None }

/-- `InterpreterState::set_var`: overwrite the local slot if the name is
local, else the global slot; `none` models the `unwrap` panic when the name
is in neither table. -/
def setVar (st : InterpreterState) (name : String) (v : Value) :
    Option InterpreterState :=
  if (lookupTable st.vars name).isSome then
    some { st with vars := insertTable st.vars name v }
  else if (lookupTable st.globals name).isSome then
    some { st with globals := insertTable st.globals name v }
  else
    Option.none

/-- The identifier resolution performed by `InterpreterState::get_value` on a
popped value: an identifier is looked up in locals then globals; failing
that, a name present in the native-function table becomes an `ExtFn`
reference; any other value (including an unresolvable identifier) is
returned unchanged. -/
def resolveValue (st : InterpreterState) (v : Value) : Value :=
  match v with
  | Value.Ident i =>
    match getVar st i with
    | some r => r
    | Option.none =>
      if (lookupTable st.extFns i).isSome then Value.ExtFn i else v
  | _ => v

/-- `InterpreterState::get_value`: pop the operand stack and resolve;
`none` is the empty-stack case (the popped `Option` is `None`). -/
def getValue (st : InterpreterState) : Option (Value × InterpreterState) :=
  match st.stack with
  | [] => Option.none
  | v :: rest => some (resolveValue st v, { st with stack := rest })

/-- The integer reading performed by `InterpreterState::get_int` on a popped
value: an integer directly, an identifier only if bound to an integer,
anything else fails. -/
def intOfVal (st : InterpreterState) (v : Value) : Option Int :=
  match v with
  | Value.Int i => some i
  | Value.Ident i =>
    match getVar st i with
    | some (Value.Int n) => some n
    | _ => Option.none
  | _ => Option.none

/-- `InterpreterState::get_int` followed by the caller's `.unwrap()` (every
call site of `get_int` in `run` unwraps immediately): pop the stack (panic
when empty) and read an integer (panic when not one). -/
def getInt (st : InterpreterState) : Except RunError (Int × InterpreterState) :=
  match st.stack with
  | [] => Except.error RunError.unwrapNone
  | v :: rest =>
    match intOfVal st v with
    | some i => Except.ok (i, { st with stack := rest })
    | Option.none => Except.error RunError.unwrapNone

/-- The fresh child context built at every nested-execution site
(`eval_tuple`, `eval_array`, `for`, `if`): empty stack, cloned locals,
cloned globals, empty delimiter stack, shared native table.  The `output`
field is inherited because stdout is one shared stream. -/
def childState (st : InterpreterState) : InterpreterState :=
  { stack := [], vars := st.vars, globals := st.globals, delims := [],
    extFns := st.extFns, output := st.output }

/-- The copy-out merge loop
`for var in self.vars.iter_mut() { *var.1 = istate_new.get_var(var.0).unwrap().clone() }`
run after `for` and `if` bodies: every pre-existing parent local is
overwritten with the child's current value for that name (child lookup falls
back to the child's globals, as `get_var` does); `none` models the `unwrap`
panic when the child knows nothing under the name. -/
def mergeVars (child : InterpreterState) :
    List (String × Value) → Option (List (String × Value))
  | [] => some []
  | (k, _) :: rest =>
    match getVar child k with
    | some v =>
      match mergeVars child rest with
      | some m => some ((k, v) :: m)
      | Option.none => Option.none
    | Option.none => Option.none

/-- The argument-binding loop of `Op::CallFn`
(`for arg in f.args.iter().rev() { istate_new.add_var(&arg); istate_new.set_var(&arg, self.get_value().unwrap()); }`).
The caller passes the parameter list already reversed; each step pops one
resolved operand from the caller and binds it in the child. -/
def bindArgs : List String → InterpreterState → InterpreterState →
    Except RunError (InterpreterState × InterpreterState)
  | [], caller, child => Except.ok (caller, child)
  | a :: restArgs, caller, child =>
    let child1 := addVar child a
    match getValue caller with
    | Option.none => Except.error RunError.unwrapNone
    | some (v, caller1) =>
      match setVar child1 a v with
      | some child2 => bindArgs restArgs caller1 child2
      | Option.none => Except.error RunError.unwrapNone

/-- Rust `{:?}` names of `Keyword` variants. -/
def debugKeyword : Keyword → String
  | Keyword.Let => "Let"
  | Keyword.Global => "Global"
  | Keyword.Print => "Print"
  | Keyword.PrintLn => "PrintLn"
  | Keyword.Fn => "Fn"
  | Keyword.For => "For"
  | Keyword.If => "If"

/-- Rust `{:?}` names of `Op` variants. -/
def debugOp : Op → String
  | Op.Add => "Add"
  | Op.Sub => "Sub"
  | Op.Mul => "Mul"
  | Op.Div => "Div"
  | Op.Mod => "Mod"
  | Op.Assign => "Assign"
  | Op.AddAssign => "AddAssign"
  | Op.SubAssign => "SubAssign"
  | Op.MulAssign => "MulAssign"
  | Op.DivAssign => "DivAssign"
  | Op.Invert => "Invert"
  | Op.TupleStart => "TupleStart"
  | Op.TupleEnd => "TupleEnd"
  | Op.BlockStart => "BlockStart"
  | Op.BlockEnd => "BlockEnd"
  | Op.ArrayStart => "ArrayStart"
  | Op.ArrayEnd => "ArrayEnd"
  | Op.CallFn => "CallFn"
  | Op.IndexArray => "IndexArray"

/-- Rust derived `{:?}` for `Value`, fueled against the nested recursion
(the fuel is ample for every value a theorem touches).  Only used by the
`Display` rendering of `Value::Fn`; string/char escape sequences of Rust's
`Debug` are not reproduced (no verified claim prints a function value). -/
def debugValue : Nat → Value → String
  | 0, _ => ""
  | fuel + 1, v =>
    match v with
    | Value.Int i => "Int(" ++ toString i ++ ")"
    | Value.Char c => "Char(\x27" ++ String.singleton c ++ "\x27)"
    | Value.String s => "String(\"" ++ s ++ "\")"
    | Value.Ident s => "Ident(\"" ++ s ++ "\")"
    | Value.ExtFn s => "ExtFn(\"" ++ s ++ "\")"
    | Value.Operation op => "Operation(" ++ debugOp op ++ ")"
    | Value.Keyword kw => "Keyword(" ++ debugKeyword kw ++ ")"
    | Value.Fn args body =>
      "Fn(Fn \x7b args: [" ++
        String.intercalate ", " (args.map (fun a => "\"" ++ a ++ "\"")) ++
        "], body: [" ++
        String.intercalate ", " (body.map (debugValue fuel)) ++ "] \x7d)"
    | Value.Tuple t =>
      "Tuple([" ++ String.intercalate ", " (t.map (debugValue fuel)) ++ "])"
    | Value.Block b =>
      "Block([" ++ String.intercalate ", " (b.map (debugValue fuel)) ++ "])"
    | Value.Array a =>
      "Array([" ++ String.intercalate ", " (a.map (debugValue fuel)) ++ "])"
    | Value.None => "None"

/-- The body rendering shared by `Display` of `Value::Block` and
`Value::Array`: elements space-separated, the last one followed by a line
break, nothing for an empty body. -/
def displayBody (xs : List String) : String :=
  if xs.isEmpty then "" else String.intercalate " " xs ++ "\n"

/-- `impl Display for Value` from `src/lib.rs`, fueled against the nested
recursion (the fuel is ample for every value a theorem touches). -/
def displayValue : Nat → Value → String
  | 0, _ => ""
  | fuel + 1, v =>
    match v with
    | Value.Ident i => "(ident: " ++ i ++ ")"
    | Value.ExtFn i => "(ext_fn: " ++ i ++ ")"
    | Value.Int i => toString i
    | Value.Char c => String.singleton c
    | Value.Keyword kw => debugKeyword kw
    | Value.String s => s
    | Value.None => "none"
    | Value.Operation op => "(op: " ++ debugOp op ++ ")"
    | Value.Fn args body => "(fn: " ++ debugValue fuel (Value.Fn args body) ++ ")"
    | Value.Tuple t =>
      "(" ++ String.intercalate " " (t.map (displayValue fuel)) ++ ")"
    | Value.Block b => "\x7b\n\t" ++ displayBody (b.map (displayValue fuel)) ++ "\x7d"
    | Value.Array b => "[\n\t" ++ displayBody (b.map (displayValue fuel)) ++ "]"

/-- The per-iteration loop of `Keyword::For`: one single child context `ch`
is threaded through all iterations; each iteration only re-seeds the loop
variable (`set_var`, a panic if it were ever unbound) and re-runs the body
through the recursion handle `recur`. -/
def forLoop (recur : InterpreterState → List Value → Except RunError InterpreterState)
    (i : String) (body : List Value) :
    InterpreterState → List Value → Except RunError InterpreterState
  | ch, [] => Except.ok ch
  | ch, v :: vs =>
    match setVar ch i v with
    | Option.none => Except.error RunError.unwrapNone
    | some ch1 =>
      match recur ch1 body with
      | Except.error e => Except.error e
      | Except.ok ch2 => forLoop recur i body ch2 vs

/-- `InterpreterState::eval_array` with the recursion handle `recur` for the
nested run: an array literal's contents are executed in a fresh child
context; the parent takes the child's globals (and stdout) back and the
child's final operand stack, in vector order, becomes the array.  Any
non-array value is returned unchanged. -/
def evalArrayWith
    (recur : InterpreterState → List Value → Except RunError InterpreterState)
    (st : InterpreterState) (v : Value) :
    Except RunError (InterpreterState × Value) :=
  match v with
  | Value.Array t =>
    match recur (childState st) t with
    | Except.error e => Except.error e
    | Except.ok ch =>
      Except.ok ({ st with globals := ch.globals, output := ch.output },
        Value.Array ch.stack.reverse)
  | _ => Except.ok (st, v)

/-- `InterpreterState::eval_tuple`, same shape as `evalArrayWith`. -/
def evalTupleWith
    (recur : InterpreterState → List Value → Except RunError InterpreterState)
    (st : InterpreterState) (v : Value) :
    Except RunError (InterpreterState × Value) :=
  match v with
  | Value.Tuple t =>
    match recur (childState st) t with
    | Except.error e => Except.error e
    | Except.ok ch =>
      Except.ok ({ st with globals := ch.globals, output := ch.output },
        Value.Tuple ch.stack.reverse)
  | _ => Except.ok (st, v)

/-- Reduction of an integer to the two's-complement `i32` range
`[-2147483648, 2147483648)`: the wrapping overflow semantics of Rust `i32`
`+ - *` in release builds.  The identity on the `i32` range itself. -/
def wrap32 (n : Int) : Int :=
  (n + 2147483648) % 4294967296 - 2147483648

/-- The inner `match op` of the arithmetic branch of `run`: Rust `i32`
arithmetic.  `+ - *` wrap to the `i32` range (release semantics; a debug
build panics on overflow instead, so the arithmetic theorems only quantify
over the non-overflowing domain on which the two profiles agree).  Division
and remainder use Rust's truncation-toward-zero convention; a zero divisor,
and the overflowing `i32::MIN / -1` and `i32::MIN % -1`, panic in every
Rust profile.  Only ever applied to the five arithmetic operators. -/
def arithResult (op : Op) (a b : Int) : Except RunError Int :=
  match op with
  | Op.Add => Except.ok (wrap32 (a + b))
  | Op.Sub => Except.ok (wrap32 (a - b))
  | Op.Mul => Except.ok (wrap32 (a * b))
  | Op.Div =>
    if b = 0 then Except.error (RunError.panicked "attempt to divide by zero")
    else if a = -2147483648 ∧ b = -1 then
      Except.error (RunError.panicked "attempt to divide with overflow")
    else Except.ok (Int.tdiv a b)
  | Op.Mod =>
    if b = 0 then
      Except.error
        (RunError.panicked "attempt to calculate the remainder with a divisor of zero")
    else if a = -2147483648 ∧ b = -1 then
      Except.error (RunError.panicked "attempt to calculate the remainder with overflow")
    else Except.ok (Int.tmod a b)
  | _ => Except.ok 0

/-- One iteration of the token loop of `InterpreterState::run`: the body of
`for val in vals { ... }` from `src/lib.rs`, lines 246-522.  Nested
executions go through the recursion handle `recur`; `fuel` is only passed on
to the fueled `Display` rendering.  The `{:?}` state dumps preceding the
panics, and the `{:?}` payloads of some panic messages, are dropped: no
claim observes panic text beyond the kind of abort. -/
def stepTok (fuel : Nat)
    (recur : InterpreterState → List Value → Except RunError InterpreterState)
    (st : InterpreterState) (val : Value) : Except RunError InterpreterState :=
  match st.delims with
  | d :: ds =>
    match d with
    | Delim.Block vs =>
      match val with
      | Value.Operation Op.BlockEnd =>
        Except.ok { st with delims := ds, stack := Value.Block vs :: st.stack }
      | _ => Except.ok { st with delims := Delim.Block (vs ++ [val]) :: ds }
    | Delim.Tuple vs =>
      match val with
      | Value.Operation Op.TupleEnd =>
        Except.ok { st with delims := ds, stack := Value.Tuple vs :: st.stack }
      | _ => Except.ok { st with delims := Delim.Tuple (vs ++ [val]) :: ds }
    | Delim.Array vs =>
      match val with
      | Value.Operation Op.ArrayEnd =>
        match evalArrayWith recur { st with delims := ds } (Value.Array vs) with
        | Except.error e => Except.error e
        | Except.ok (st1, chud) =>
          Except.ok { st1 with stack := chud :: st1.stack }
      | _ => Except.ok { st with delims := Delim.Array (vs ++ [val]) :: ds }
  | [] =>
    match val with
    | Value.Operation op =>
      match op with
      | Op.Assign =>
        match getValue st with
        | Option.none => Except.error RunError.unwrapNone
        | some (v, st1) =>
          match st1.stack with
          | [] => Except.error RunError.unwrapNone
          | k :: s2 =>
            match k with
            | Value.Ident name =>
              match setVar { st1 with stack := s2 } name v with
              | some st2 => Except.ok st2
              | Option.none => Except.error RunError.unwrapNone
            | _ => Except.error (RunError.panicked "type mismatch")
      | Op.Add | Op.Sub | Op.Mul | Op.Div | Op.Mod =>
        match getInt st with
        | Except.error e => Except.error e
        | Except.ok (b, st1) =>
          match getInt st1 with
          | Except.error e => Except.error e
          | Except.ok (a, st2) =>
            match arithResult op a b with
            | Except.error e => Except.error e
            | Except.ok r =>
              Except.ok { st2 with stack := Value.Int r :: st2.stack }
      | Op.Invert =>
        match getInt st with
        | Except.error e => Except.error e
        | Except.ok (a, st1) =>
          Except.ok
            { st1 with stack := Value.Int (if a ≠ 0 then 0 else 1) :: st1.stack }
      | Op.BlockStart => Except.ok { st with delims := Delim.Block [] :: st.delims }
      | Op.TupleStart => Except.ok { st with delims := Delim.Tuple [] :: st.delims }
      | Op.ArrayStart => Except.ok { st with delims := Delim.Array [] :: st.delims }
      | Op.CallFn =>
        match getValue st with
        | Option.none => Except.error RunError.unwrapNone
        | some (callee, st1) =>
          match callee with
          | Value.Fn args body =>
            let child0 : InterpreterState :=
              { stack := [], vars := [], globals := st1.globals, delims := [],
                extFns := st1.extFns, output := st1.output }
            match bindArgs args.reverse st1 child0 with
            | Except.error e => Except.error e
            | Except.ok (caller1, child1) =>
              match recur child1 body with
              | Except.error e => Except.error e
              | Except.ok ch =>
                Except.ok { caller1 with globals := ch.globals, output := ch.output }
          | Value.ExtFn name =>
            match lookupTable st1.extFns name with
            | Option.none => Except.error RunError.unwrapNone
            | some f =>
              match getValue st1 with
              | Option.none =>
                Except.ok { st1 with stack := f Value.None :: st1.stack }
              | some (v, st2) =>
                Except.ok { st2 with stack := f v :: st2.stack }
          | _ => Except.error (RunError.panicked "cant call non-fn")
      | Op.IndexArray =>
        match getInt st with
        | Except.error e => Except.error e
        | Except.ok (index, st1) =>
          match getValue st1 with
          | Option.none => Except.error RunError.unwrapNone
          | some (arr, st2) =>
            match arr with
            | Value.Array a =>
              if h : 0 ≤ index ∧ index.toNat < a.length then
                Except.ok { st2 with stack := a.get ⟨index.toNat, h.2⟩ :: st2.stack }
              else Except.error (RunError.panicked "index out of bounds")
            | Value.String s =>
              -- `a.as_bytes()[index].into()`: for the ASCII strings the
              -- scripts use, byte `index` is character `index`
              if h : 0 ≤ index ∧ index.toNat < s.data.length then
                Except.ok
                  { st2 with stack := Value.Char (s.data.get ⟨index.toNat, h.2⟩) :: st2.stack }
              else Except.error (RunError.panicked "index out of bounds")
            | _ => Except.error (RunError.panicked "index an array you tard")
      | _ => Except.ok st
    | Value.Int _ | Value.Char _ | Value.String _ | Value.Ident _
    | Value.Fn _ _ | Value.ExtFn _ =>
      Except.ok { st with stack := val :: st.stack }
    | Value.Keyword kw =>
      match kw with
      | Keyword.Let =>
        match st.stack with
        | [] => Except.error RunError.unwrapNone
        | k :: s1 =>
          match k with
          | Value.Ident i =>
            let st1 := addVar { st with stack := s1 } i
            Except.ok { st1 with stack := Value.Ident i :: st1.stack }
          | _ => Except.error (RunError.panicked "use let on an ident, dummy!")
      | Keyword.Global =>
        match st.stack with
        | [] => Except.error RunError.unwrapNone
        | k :: s1 =>
          match k with
          | Value.Ident i =>
            let st1 := addGlobal { st with stack := s1 } i
            Except.ok { st1 with stack := Value.Ident i :: st1.stack }
          | _ => Except.error (RunError.panicked "use let on an ident, dummy!")
      | Keyword.Fn =>
        match getValue st with
        | Option.none => Except.error RunError.unwrapNone
        | some (block_, st1) =>
          match getValue st1 with
          | Option.none => Except.error RunError.unwrapNone
          | some (tuple_, st2) =>
            match block_ with
            | Value.Block block =>
              match tuple_ with
              | Value.Tuple tuple =>
                let args := tuple.filterMap
                  (fun a => match a with | Value.Ident i => some i | _ => Option.none)
                Except.ok { st2 with stack := Value.Fn args block :: st2.stack }
              | _ =>
                Except.error (RunError.panicked "try to create a function properly next time")
            | _ =>
              Except.error (RunError.panicked "try to create a function properly next time")
      | Keyword.Print =>
        match getValue st with
        | Option.none => Except.error RunError.unwrapNone
        | some (v, st1) =>
          match evalTupleWith recur st1 v with
          | Except.error e => Except.error e
          | Except.ok (st2, v2) =>
            Except.ok { st2 with output := st2.output ++ displayValue fuel v2 }
      | Keyword.PrintLn =>
        match getValue st with
        | Option.none => Except.error RunError.unwrapNone
        | some (v, st1) =>
          match evalTupleWith recur st1 v with
          | Except.error e => Except.error e
          | Except.ok (st2, v2) =>
            Except.ok { st2 with output := st2.output ++ displayValue fuel v2 ++ "\n" }
      | Keyword.For =>
        match getValue st with
        | Option.none => Except.error RunError.unwrapNone
        | some (block, st1) =>
          match st1.stack with
          | [] => Except.error RunError.unwrapNone
          | valName :: s2 =>
            match getValue { st1 with stack := s2 } with
            | Option.none => Except.error RunError.unwrapNone
            | some (array0, st3) =>
              match evalArrayWith recur st3 array0 with
              | Except.error e => Except.error e
              | Except.ok (st4, array) =>
                match array with
                | Value.Array a =>
                  match valName with
                  | Value.Ident i =>
                    match block with
                    | Value.Block b =>
                      let child1 := addVar (childState st4) i
                      match forLoop recur i b child1 a with
                      | Except.error e => Except.error e
                      | Except.ok chF =>
                        match mergeVars chF st4.vars with
                        | Option.none => Except.error RunError.unwrapNone
                        | some m =>
                          Except.ok { st4 with
                            vars := m, globals := chF.globals, output := chF.output }
                    | _ => Except.error (RunError.panicked "not a block")
                  | _ => Except.error (RunError.panicked "not an ident")
                | _ => Except.error (RunError.panicked "not an array")
      | Keyword.If =>
        match getValue st with
        | Option.none => Except.error RunError.unwrapNone
        | some (block, st1) =>
          match getInt st1 with
          | Except.error e => Except.error e
          | Except.ok (cond, st2) =>
            if cond ≠ 0 then
              match block with
              | Value.Block b =>
                match recur (childState st2) b with
                | Except.error e => Except.error e
                | Except.ok ch =>
                  match mergeVars ch st2.vars with
                  | Option.none => Except.error RunError.unwrapNone
                  | some m =>
                    Except.ok { st2 with
                      vars := m, globals := ch.globals, output := ch.output }
              | _ => Except.error (RunError.panicked "not a block")
            else Except.ok st2
    | Value.Tuple _ | Value.Block _ | Value.Array _ | Value.None => Except.ok st

/-- The token loop of `InterpreterState::run` over one value sequence, with
a fixed recursion handle for nested executions. -/
def runList (fuel : Nat)
    (recur : InterpreterState → List Value → Except RunError InterpreterState) :
    InterpreterState → List Value → Except RunError InterpreterState
  | st, [] => Except.ok st
  | st, v :: rest =>
    match stepTok fuel recur st v with
    | Except.error e => Except.error e
    | Except.ok st' => runList fuel recur st' rest

/-- `InterpreterState::run` from `src/lib.rs`: execute a value sequence
against the state.  The fuel bounds the nesting depth of child executions
(function bodies, loop bodies, conditional bodies, eager array/tuple
evaluation); every claim supplies enough fuel. -/
def run : Nat → InterpreterState → List Value → Except RunError InterpreterState
  | 0, _, _ => Except.error RunError.outOfFuel
  | fuel + 1, st, vals => runList fuel (run fuel) st vals

/-- The interpreter state the program entry point starts from: everything
empty, no native functions registered. -/
def initState : InterpreterState :=
  { stack := [], vars := [], globals := [], delims := [], extFns := [],
    output := "" }

/-- The operator glyph table of `tokenize` (`src/lib.rs`, lines 547-565);
`none` is the `panic!("invalid char ...")` arm. -/
def opOfChar : Char → Option Op
  | '+' => some Op.Add
  | '-' => some Op.Sub
  | '*' => some Op.Mul
  | '/' => some Op.Div
  | '%' => some Op.Mod
  | '=' => some Op.Assign
  | '!' => some Op.Invert
  | '(' => some Op.TupleStart
  | ')' => some Op.TupleEnd
  | '\x7b' => some Op.BlockStart
  | '\x7d' => some Op.BlockEnd
  | '[' => some Op.ArrayStart
  | ']' => some Op.ArrayEnd
  | '@' => some Op.CallFn
  | '#' => some Op.IndexArray
  | _ => Option.none

/-- The numeric value of the decimal-digit buffer accumulated for an
integer token. -/
def parseIntDigits (s : String) : Int :=
  s.data.foldl (fun n c => n * 10 + Int.ofNat (c.toNat - 48)) 0

/-- `cur_str.parse::<i32>().unwrap()`: the buffer holds decimal digits (so
the value is non-negative); a value above `i32::MAX` makes `parse` return
`Err` and the `unwrap` panic. -/
def parseI32 (s : String) : Except RunError Int :=
  if parseIntDigits s ≤ 2147483647 then Except.ok (parseIntDigits s)
  else Except.error RunError.unwrapNone

/-- The keyword table applied when an identifier run terminates
(`src/lib.rs`, lines 589-614). -/
def keywordOf (s : String) : Value :=
  match s with
  | "let" => Value.Keyword Keyword.Let
  | "global" => Value.Keyword Keyword.Global
  | "print" => Value.Keyword Keyword.Print
  | "println" => Value.Keyword Keyword.PrintLn
  | "fn" => Value.Keyword Keyword.Fn
  | "for" => Value.Keyword Keyword.For
  | "if" => Value.Keyword Keyword.If
  | _ => Value.Ident s

/-- One character of the lexer state machine of `tokenize`: the state is the
pair (`cur_val`, `cur_str`) exactly as in the source (the in-progress token
kind is itself a `Value`), the result is the successor state plus the tokens
emitted by this character.  Note that in every accumulating state the
terminating character is consumed by the `continue` of the source, never
reprocessed.  Character classes follow the source for the ASCII inputs the
scripts use (`is_numeric`/`is_alphanumeric` are Unicode in Rust but all
script characters are ASCII). -/
def lexStep : Value → String → Char → Except RunError (Value × String × List Value)
  | Value.None, buf, ch =>
    if ch.isDigit then Except.ok (Value.Int 0, buf.push ch, [])
    else if ch.isAlpha then Except.ok (Value.Ident "", buf.push ch, [])
    else if ch = '"' then Except.ok (Value.String "", buf, [])
    else if ch = ' ' ∨ ch = '\n' then Except.ok (Value.None, "", [])
    else
      match opOfChar ch with
      | some op => Except.ok (Value.Operation op, buf, [])
      | Option.none =>
        Except.error (RunError.panicked ("invalid char " ++ String.singleton ch))
  | Value.Int i, buf, ch =>
    if ch.isDigit then Except.ok (Value.Int i, buf.push ch, [])
    else
      match parseI32 buf with
      | Except.ok n => Except.ok (Value.None, "", [Value.Int n])
      | Except.error e => Except.error e
  | Value.String s, buf, ch =>
    if ch = '"' then Except.ok (Value.None, "", [Value.String buf])
    else Except.ok (Value.String s, buf.push ch, [])
  | Value.Ident s, buf, ch =>
    if ch.isAlphanum then Except.ok (Value.Ident s, buf.push ch, [])
    else Except.ok (Value.None, "", [keywordOf buf])
  | Value.Operation cop, buf, ch =>
    if ch = '=' then
      match cop with
      | Op.Add => Except.ok (Value.Operation Op.AddAssign, buf, [])
      | Op.Sub => Except.ok (Value.Operation Op.SubAssign, buf, [])
      | Op.Mul => Except.ok (Value.Operation Op.MulAssign, buf, [])
      | Op.Div => Except.ok (Value.Operation Op.DivAssign, buf, [])
      | _ => Except.error (RunError.panicked "invalid operator")
    else Except.ok (Value.None, "", [Value.Operation cop])
  | cur, buf, _ => Except.ok (cur, buf, [])

/-- The character fold of `tokenize`, accumulating emitted tokens. -/
def lexFold : Value → String → List Value → List Char → Except RunError (List Value)
  | _, _, acc, [] => Except.ok acc
  | cur, buf, acc, ch :: rest =>
    match lexStep cur buf ch with
    | Except.error e => Except.error e
    | Except.ok (cur', buf', emitted) => lexFold cur' buf' (acc ++ emitted) rest

/-- `tokenize` from `src/lib.rs`: lex the whole source text.  A token still
being accumulated at end of input is dropped, exactly as in the source. -/
def tokenize (s : String) : Except RunError (List Value) :=
  lexFold Value.None "" [] s.data

example : tokenize "+3" = Except.ok [Value.Operation Op.Add] := rfl

example : tokenize "+= " = Except.ok [Value.Operation Op.AddAssign] := rfl

example : tokenize "2 3 + " =
    Except.ok [Value.Int 2, Value.Int 3, Value.Operation Op.Add] := rfl

example :
    run 1 initState [Value.Int 2, Value.Int 3, Value.Operation Op.Add] =
      Except.ok { initState with stack := [Value.Int 5] } := rfl

/-! Association-list table lemmas. -/

theorem lookupTable_insert_self {α : Type} (t : List (String × α)) (k : String) (v : α) :
    lookupTable (insertTable t k v) k = some v := by
  induction t with
  | nil => simp [insertTable, lookupTable]
  | cons hd tl ih =>
    obtain ⟨k', w⟩ := hd
    by_cases h : k' = k <;> simp [insertTable, lookupTable, h, ih]

theorem insertTable_fresh {α : Type} (t : List (String × α)) (k : String) (v : α)
    (h : lookupTable t k = Option.none) : insertTable t k v = t ++ [(k, v)] := by
  induction t with
  | nil => simp [insertTable]
  | cons hd tl ih =>
    obtain ⟨k', w⟩ := hd
    by_cases hk : k' = k
    · simp [lookupTable, hk] at h
    · simp [insertTable, hk, lookupTable] at h ⊢
      exact ih h

theorem lookupTable_append_singleton_ne {α : Type} (t : List (String × α))
    (k : String) (v : α) (k' : String) (h : k ≠ k') :
    lookupTable (t ++ [(k, v)]) k' = lookupTable t k' := by
  induction t with
  | nil => simp [lookupTable, h]
  | cons hd tl ih =>
    obtain ⟨k0, w⟩ := hd
    by_cases hk : k0 = k' <;> simp [lookupTable, hk, ih]

theorem insertTable_append_self {α : Type} (t : List (String × α))
    (k : String) (w v : α) (h : lookupTable t k = Option.none) :
    insertTable (t ++ [(k, w)]) k v = t ++ [(k, v)] := by
  induction t with
  | nil => simp [insertTable]
  | cons hd tl ih =>
    obtain ⟨k0, u⟩ := hd
    by_cases hk : k0 = k
    · simp [lookupTable, hk] at h
    · simp [insertTable, hk, lookupTable] at h ⊢
      exact ih h

/-! The identifier-resolution helpers only look at the variable tables and
the native-function table, never at the operand stack or delimiter stack.
Thanks to structure eta these are definitional. -/

theorem resolveValue_set_stack (st : InterpreterState) (s : List Value) (v : Value) :
    resolveValue { st with stack := s } v = resolveValue st v := rfl

theorem intOfVal_set_stack (st : InterpreterState) (s : List Value) (v : Value) :
    intOfVal { st with stack := s } v = intOfVal st v := rfl

/-! `bindArgs` lemmas: the argument-binding loop of `Op::CallFn`. -/

/-- Whatever the parameter names, binding `as.length` parameters pops exactly
that many operands off the caller and touches nothing else of the caller. -/
theorem bindArgs_caller (as : List String) :
    ∀ (vals rest : List Value) (caller child caller' child' : InterpreterState),
    vals.length = as.length → caller.stack = vals ++ rest →
    bindArgs as caller child = Except.ok (caller', child') →
    caller' = { caller with stack := rest } := by
  induction as with
  | nil =>
    intro vals rest caller child caller' child' hlen hstack h
    have hv : vals = [] := List.length_eq_zero.mp hlen
    subst hv
    simp [bindArgs] at h
    obtain ⟨h1, h2⟩ := h
    subst h1
    simp at hstack
    rw [← hstack]
  | cons a as ih =>
    intro vals rest caller child caller' child' hlen hstack h
    match vals, hlen with
    | v :: vals', hlen =>
      simp [bindArgs, getValue, hstack, setVar, addVar, lookupTable_insert_self] at h
      have := ih vals' rest _ _ caller' child' (by simpa using hlen) rfl h
      rw [this]

/-- With pairwise-distinct parameter names, the binding loop builds the
child's local table as exactly the reversed pairing of parameter names with
the caller-resolved popped operands, appended to whatever the child already
had. -/
theorem bindArgs_spec (as : List String) :
    ∀ (vals rest : List Value) (caller child : InterpreterState),
    vals.length = as.length → caller.stack = vals ++ rest →
    as.Nodup → (∀ a ∈ as, lookupTable child.vars a = Option.none) →
    bindArgs as caller child =
      Except.ok ({ caller with stack := rest },
        { child with vars := child.vars ++ as.zip (vals.map (resolveValue caller)) }) := by
  induction as with
  | nil =>
    intro vals rest caller child hlen hstack hnd hfresh
    have hv : vals = [] := List.length_eq_zero.mp hlen
    subst hv
    simp at hstack
    simp [bindArgs, ← hstack]
  | cons a as ih =>
    intro vals rest caller child hlen hstack hnd hfresh
    match vals, hlen with
    | v :: vals', hlen =>
      have hfa : lookupTable child.vars a = Option.none := hfresh a (by simp)
      simp [bindArgs, getValue, hstack, addVar, setVar, lookupTable_insert_self]
      rw [insertTable_fresh child.vars a Value.None hfa]
      rw [insertTable_append_self child.vars a _ _ hfa]
      have hfresh' : ∀ a' ∈ as,
          lookupTable (child.vars ++ [(a, resolveValue caller v)]) a' = Option.none := by
        intro a' ha'
        have hne : a ≠ a' := by
          intro hcon
          exact (List.nodup_cons.mp hnd).1 (hcon ▸ ha')
        rw [lookupTable_append_singleton_ne _ _ _ _ hne]
        exact hfresh a' (by simp [ha'])
      have := ih vals' rest { caller with stack := vals' ++ rest }
        { child with vars := child.vars ++ [(a, resolveValue caller v)] }
        (by simpa using hlen) rfl (List.nodup_cons.mp hnd).2 hfresh'
      rw [this]
      simp [List.append_assoc]
      rfl

/-! `mergeVars` lemma: the copy-out merge after `for` and `if`. -/

/-- A successful merge yields a table with exactly the parent's names, in
order (names created only in the child are discarded), and every entry holds
the child's current value for that name (mutations of pre-existing names
propagate). -/
theorem mergeVars_spec (child : InterpreterState) :
    ∀ (t m : List (String × Value)), mergeVars child t = some m →
    m.map Prod.fst = t.map Prod.fst ∧ ∀ p ∈ m, getVar child p.1 = some p.2 := by
  intro t
  induction t with
  | nil =>
    intro m h
    simp [mergeVars] at h
    subst h
    simp
  | cons hd tl ih =>
    intro m h
    obtain ⟨k, v⟩ := hd
    simp only [mergeVars] at h
    cases hg : getVar child k with
    | none => rw [hg] at h; exact absurd h (by simp)
    | some w =>
      rw [hg] at h
      cases hm : mergeVars child tl with
      | none => rw [hm] at h; exact absurd h (by simp)
      | some m' =>
        rw [hm] at h
        simp at h
        subst h
        obtain ⟨ih1, ih2⟩ := ih m' hm
        refine ⟨by simp [ih1], ?_⟩
        intro p hp
        rcases List.mem_cons.mp hp with h1 | h2
        · subst h1; exact hg
        · exact ih2 p h2

/-- Running a single token is one `stepTok` (the token loop collapses). -/
theorem run_singleton (fuel : Nat) (st : InterpreterState) (v : Value) :
    run (fuel + 1) st [v] = stepTok fuel (run fuel) st v := by
  show runList fuel (run fuel) st [v] = stepTok fuel (run fuel) st v
  unfold runList
  cases stepTok fuel (run fuel) st v <;> simp [runList]

/-- Zipping commutes with reversal for equal-length lists. -/
theorem zip_reverse {α β : Type} (l1 : List α) (l2 : List β)
    (h : l1.length = l2.length) :
    l1.reverse.zip l2.reverse = (l1.zip l2).reverse := by
  simp [List.zip_eq_zipWith, List.reverse_zipWith h]

/-- C1, counterexample: a tuple-close with an empty delimiter stack is
executed without any error and leaves the state unchanged, and a tuple-close
while the top frame is a block is likewise executed without error, merely
appended to the block's buffer — the claim says both must abort the run. -/
theorem C1_counterexample :
    run 1 initState [Value.Operation Op.TupleEnd] = Except.ok initState ∧
    run 1 { initState with delims := [Delim.Block []] } [Value.Operation Op.TupleEnd] =
      Except.ok { initState with delims := [Delim.Block [Value.Operation Op.TupleEnd]] } :=
  ⟨rfl, rfl⟩

/-- C1, amended: a closing grouping marker arriving with an empty delimiter
stack is silently ignored (it falls into the evaluator's no-op arm), and a
closing marker whose kind does not match the top delimiter frame is buffered
into that frame like any ordinary token; neither situation aborts
execution. -/
theorem C1_thm (fuel : Nat) (st : InterpreterState) (vs : List Value) (ds : List Delim) :
    (st.delims = [] →
      run (fuel + 1) st [Value.Operation Op.TupleEnd] = Except.ok st ∧
      run (fuel + 1) st [Value.Operation Op.BlockEnd] = Except.ok st ∧
      run (fuel + 1) st [Value.Operation Op.ArrayEnd] = Except.ok st) ∧
    (st.delims = Delim.Block vs :: ds →
      run (fuel + 1) st [Value.Operation Op.TupleEnd] =
        Except.ok { st with delims := Delim.Block (vs ++ [Value.Operation Op.TupleEnd]) :: ds } ∧
      run (fuel + 1) st [Value.Operation Op.ArrayEnd] =
        Except.ok { st with delims := Delim.Block (vs ++ [Value.Operation Op.ArrayEnd]) :: ds }) ∧
    (st.delims = Delim.Tuple vs :: ds →
      run (fuel + 1) st [Value.Operation Op.BlockEnd] =
        Except.ok { st with delims := Delim.Tuple (vs ++ [Value.Operation Op.BlockEnd]) :: ds } ∧
      run (fuel + 1) st [Value.Operation Op.ArrayEnd] =
        Except.ok { st with delims := Delim.Tuple (vs ++ [Value.Operation Op.ArrayEnd]) :: ds }) ∧
    (st.delims = Delim.Array vs :: ds →
      run (fuel + 1) st [Value.Operation Op.TupleEnd] =
        Except.ok { st with delims := Delim.Array (vs ++ [Value.Operation Op.TupleEnd]) :: ds } ∧
      run (fuel + 1) st [Value.Operation Op.BlockEnd] =
        Except.ok { st with delims := Delim.Array (vs ++ [Value.Operation Op.BlockEnd]) :: ds }) := by
  obtain ⟨sk, vr, gl, dl, ef, out⟩ := st
  refine ⟨fun h => ?_, fun h => ?_, fun h => ?_, fun h => ?_⟩ <;>
    [skip; skip; skip; skip] <;>
    (first
      | (have h' : dl = [] := h; subst h'; exact ⟨rfl, rfl, rfl⟩)
      | (have h' : dl = Delim.Block vs :: ds := h; subst h'; exact ⟨rfl, rfl⟩)
      | (have h' : dl = Delim.Tuple vs :: ds := h; subst h'; exact ⟨rfl, rfl⟩)
      | (have h' : dl = Delim.Array vs :: ds := h; subst h'; exact ⟨rfl, rfl⟩))

/-- C1, witness for the amended theorem at concrete states. -/
theorem C1_witness :
    run 1 initState [Value.Operation Op.TupleEnd] = Except.ok initState ∧
    run 1 { initState with delims := [Delim.Tuple []] } [Value.Operation Op.BlockEnd] =
      Except.ok { initState with delims := [Delim.Tuple [Value.Operation Op.BlockEnd]] } :=
  ⟨((C1_thm 0 initState [] []).1 rfl).1,
   ((C1_thm 0 { initState with delims := [Delim.Tuple []] } [] []).2.2.1 rfl).1⟩

/-- C9, counterexample: in a state with local `x = 1` and operands `2` and
`x` on the stack, an add-assign token is executed with no error and no
effect whatsoever — the evaluator silently skips it rather than implementing
a read-modify-write or rejecting it. -/
theorem C9_counterexample :
    run 1 { initState with
        stack := [Value.Int 2, Value.Ident "x"], vars := [("x", Value.Int 1)] }
      [Value.Operation Op.AddAssign] =
      Except.ok { initState with
        stack := [Value.Int 2, Value.Ident "x"], vars := [("x", Value.Int 1)] } :=
  rfl

/-- C9, amended: all four compound-assignment tokens reaching the evaluator
with no open delimiter frame fall into its catch-all arm and are silently
ignored: the state is returned unchanged, with no error and no variable
update. -/
theorem C9_thm (fuel : Nat) (st : InterpreterState) (h : st.delims = []) :
    run (fuel + 1) st [Value.Operation Op.AddAssign] = Except.ok st ∧
    run (fuel + 1) st [Value.Operation Op.SubAssign] = Except.ok st ∧
    run (fuel + 1) st [Value.Operation Op.MulAssign] = Except.ok st ∧
    run (fuel + 1) st [Value.Operation Op.DivAssign] = Except.ok st := by
  obtain ⟨sk, vr, gl, dl, ef, out⟩ := st
  have h' : dl = [] := h
  subst h'
  exact ⟨rfl, rfl, rfl, rfl⟩

/-- C9, witness for the amended theorem at the initial state. -/
theorem C9_witness :
    run 1 initState [Value.Operation Op.AddAssign] = Except.ok initState :=
  (C9_thm 0 initState rfl).1

/-- `wrap32` is the identity on the `i32` range. -/
theorem wrap32_eq (n : Int) (h1 : -2147483648 ≤ n) (h2 : n < 2147483648) :
    wrap32 n = n := by
  unfold wrap32
  rw [Int.emod_eq_of_lt (by omega) (by omega)]
  omega

/-- C3: every arithmetic operator pops two operands, resolving identifiers
to their bound integers, with the right operand popped first (most recently
pushed, `vb`) and the left second (`va`), and pushes the integer result
`a op b`.  The general conjuncts are stated over `i32`-range operands and
restricted to non-overflowing results, the domain on which Rust's debug
(overflow panic) and release (wrapping) profiles agree — the only domain a
real run reaches without aborting or wrapping; division and remainder
additionally exclude the zero divisor and `i32::MIN op -1`, which panic in
every profile.  Concretely, `2 3 +` leaves 5, `10 3 /` leaves 3 (truncation
toward zero), and `2 1 -` leaves 1 on the operand stack. -/
theorem C3_thm (fuel : Nat) (st : InterpreterState) (vb va : Value)
    (rest : List Value) (a b : Int)
    (hd : st.delims = []) (hs : st.stack = vb :: va :: rest)
    (hb : intOfVal st vb = some b) (ha : intOfVal st va = some a)
    (_hra : -2147483648 ≤ a ∧ a < 2147483648)
    (_hrb : -2147483648 ≤ b ∧ b < 2147483648) :
    (-2147483648 ≤ a + b → a + b < 2147483648 →
      run (fuel + 1) st [Value.Operation Op.Add] =
        Except.ok { st with stack := Value.Int (a + b) :: rest }) ∧
    (-2147483648 ≤ a - b → a - b < 2147483648 →
      run (fuel + 1) st [Value.Operation Op.Sub] =
        Except.ok { st with stack := Value.Int (a - b) :: rest }) ∧
    (-2147483648 ≤ a * b → a * b < 2147483648 →
      run (fuel + 1) st [Value.Operation Op.Mul] =
        Except.ok { st with stack := Value.Int (a * b) :: rest }) ∧
    (b ≠ 0 → ¬(a = -2147483648 ∧ b = -1) →
      (run (fuel + 1) st [Value.Operation Op.Div] =
        Except.ok { st with stack := Value.Int (Int.tdiv a b) :: rest }) ∧
      (run (fuel + 1) st [Value.Operation Op.Mod] =
        Except.ok { st with stack := Value.Int (Int.tmod a b) :: rest })) ∧
    run 1 initState [Value.Int 2, Value.Int 3, Value.Operation Op.Add] =
      Except.ok { initState with stack := [Value.Int 5] } ∧
    run 1 initState [Value.Int 10, Value.Int 3, Value.Operation Op.Div] =
      Except.ok { initState with stack := [Value.Int 3] } ∧
    run 1 initState [Value.Int 2, Value.Int 1, Value.Operation Op.Sub] =
      Except.ok { initState with stack := [Value.Int 1] } := by
  obtain ⟨sk, vr, gl, dl, ef, out⟩ := st
  have hd' : dl = [] := hd
  subst hd'
  have hs' : sk = vb :: va :: rest := hs
  subst hs'
  have ha' : intOfVal ⟨va :: rest, vr, gl, [], ef, out⟩ va = some a := ha
  refine ⟨fun h1 h2 => ?_, fun h1 h2 => ?_, fun h1 h2 => ?_,
    fun hz hov => ⟨?_, ?_⟩, rfl, rfl, rfl⟩
  · simp [run_singleton, stepTok, getInt, hb, ha', arithResult, wrap32_eq _ h1 h2]
  · simp [run_singleton, stepTok, getInt, hb, ha', arithResult, wrap32_eq _ h1 h2]
  · simp [run_singleton, stepTok, getInt, hb, ha', arithResult, wrap32_eq _ h1 h2]
  · simp [run_singleton, stepTok, getInt, hb, ha', arithResult, hz, hov]
  · simp [run_singleton, stepTok, getInt, hb, ha', arithResult, hz, hov]

/-- The function-call case of `run` in closed form: popping a user function
leads to the binding loop over the reversed parameter list into a child with
an empty local table, then the body run, then the copy-back of globals (and
stdout) only. -/
theorem callFn_run (fuel : Nat) (st : InterpreterState) (args : List String)
    (body stRest : List Value)
    (hd : st.delims = []) (hs : st.stack = Value.Fn args body :: stRest) :
    run (fuel + 1) st [Value.Operation Op.CallFn] =
      (match bindArgs args.reverse { st with stack := stRest }
          { stack := [], vars := [], globals := st.globals, delims := [],
            extFns := st.extFns, output := st.output } with
       | Except.error e => Except.error e
       | Except.ok (caller1, child1) =>
         match run fuel child1 body with
         | Except.error e => Except.error e
         | Except.ok ch =>
           Except.ok { caller1 with globals := ch.globals, output := ch.output }) := by
  obtain ⟨sk, vr, gl, dl, ef, out⟩ := st
  have hd' : dl = [] := hd
  subst hd'
  have hs' : sk = Value.Fn args body :: stRest := hs
  subst hs'
  rw [run_singleton]
  rfl

/-- C2: calling a user-defined function creates a child context whose local
table holds exactly the parameter bindings (built by popping one caller
operand per parameter, iterating the parameters in reverse declaration
order, so a caller that pushed `argVals` in declaration order gives the
first-declared parameter the first-pushed value), the body runs in that
child, and afterwards only the global table (and the shared stdout stream)
propagates back to the caller — locals and the rest of the stack are
untouched. -/
theorem C2_thm (fuel : Nat) (st : InterpreterState) (args : List String)
    (body argVals rest : List Value) (ch : InterpreterState)
    (hd : st.delims = [])
    (hs : st.stack = Value.Fn args body :: (argVals.reverse ++ rest))
    (hlen : argVals.length = args.length)
    (hnd : args.Nodup)
    (hrun : run fuel
      { stack := [], vars := (args.zip (argVals.map (resolveValue st))).reverse,
        globals := st.globals, delims := [], extFns := st.extFns,
        output := st.output } body = Except.ok ch) :
    run (fuel + 1) st [Value.Operation Op.CallFn] =
      Except.ok { st with stack := rest, globals := ch.globals, output := ch.output } := by
  rw [callFn_run fuel st args body (argVals.reverse ++ rest) hd hs]
  rw [bindArgs_spec args.reverse argVals.reverse rest
    { st with stack := argVals.reverse ++ rest }
    { stack := [], vars := [], globals := st.globals, delims := [],
      extFns := st.extFns, output := st.output }
    (by simp [hlen]) rfl (List.nodup_reverse.mpr hnd) (fun a _ => rfl)]
  have hvars : args.reverse.zip
      (List.map (resolveValue { st with stack := argVals.reverse ++ rest }) argVals.reverse) =
      (args.zip (argVals.map (resolveValue st))).reverse := by
    show args.reverse.zip (List.map (resolveValue st) argVals.reverse) = _
    rw [List.map_reverse]
    exact zip_reverse args (argVals.map (resolveValue st)) (by simp [hlen])
  simp only [List.nil_append, hvars]
  rw [hrun]

/-- C2, witness: calling `fn (a b) {}` with arguments 1 and 2 pushed in
declaration order pops everything and returns only the (empty) globals. -/
theorem C2_witness :
    run 2 { initState with
        stack := [Value.Fn ["a", "b"] [], Value.Int 2, Value.Int 1] }
      [Value.Operation Op.CallFn] =
      Except.ok { initState with stack := [] } :=
  C2_thm 1
    { initState with stack := [Value.Fn ["a", "b"] [], Value.Int 2, Value.Int 1] }
    ["a", "b"] [] [Value.Int 1, Value.Int 2] []
    { stack := [], vars := [("b", Value.Int 2), ("a", Value.Int 1)], globals := [],
      delims := [], extFns := [], output := "" }
    rfl rfl rfl (by simp) rfl

/-- C10: invoking a user-defined function never pushes anything onto the
caller's operand stack — after the callable and one operand per parameter
are popped, the caller's stack is exactly the prior stack with those entries
removed; whatever operand stack the callee ends with is discarded, the
caller taking back only the callee's global table (and the shared stdout
stream). -/
theorem C10_thm (fuel : Nat) (st : InterpreterState) (args : List String)
    (body argVals rest : List Value) (caller1 child1 ch : InterpreterState)
    (hd : st.delims = [])
    (hs : st.stack = Value.Fn args body :: (argVals ++ rest))
    (hlen : argVals.length = args.length)
    (hbind : bindArgs args.reverse { st with stack := argVals ++ rest }
      { stack := [], vars := [], globals := st.globals, delims := [],
        extFns := st.extFns, output := st.output } = Except.ok (caller1, child1))
    (hrun : run fuel child1 body = Except.ok ch) :
    run (fuel + 1) st [Value.Operation Op.CallFn] =
      Except.ok { st with stack := rest, globals := ch.globals, output := ch.output } := by
  rw [callFn_run fuel st args body (argVals ++ rest) hd hs]
  rw [hbind]
  have hc := bindArgs_caller args.reverse argVals rest
    { st with stack := argVals ++ rest }
    { stack := [], vars := [], globals := st.globals, delims := [],
      extFns := st.extFns, output := st.output } caller1 child1
    (by simp [hlen]) rfl hbind
  subst hc
  dsimp only
  rw [hrun]

/-- C10, witness: calling a constant function whose body leaves `7` on its
own stack pushes nothing back onto the caller's stack. -/
theorem C10_witness :
    run 2 { initState with stack := [Value.Fn [] [Value.Int 7], Value.Int 9] }
      [Value.Operation Op.CallFn] =
      Except.ok { initState with stack := [Value.Int 9] } :=
  C10_thm 1
    { initState with stack := [Value.Fn [] [Value.Int 7], Value.Int 9] }
    [] [Value.Int 7] [] [Value.Int 9]
    { initState with stack := [Value.Int 9] }
    { stack := [], vars := [], globals := [], delims := [], extFns := [], output := "" }
    { stack := [Value.Int 7], vars := [], globals := [], delims := [], extFns := [],
      output := "" }
    rfl rfl rfl rfl rfl

/-- C3, witness: `2 3 +` via the general arithmetic theorem. -/
theorem C3_witness :
    run 1 { initState with stack := [Value.Int 3, Value.Int 2] }
      [Value.Operation Op.Add] =
      Except.ok { initState with stack := [Value.Int (2 + 3)] } :=
  (C3_thm 0 { initState with stack := [Value.Int 3, Value.Int 2] }
    (Value.Int 3) (Value.Int 2) [] 2 3 rfl rfl rfl rfl
    (by decide) (by decide)).1 (by decide) (by decide)

/-- C4, counterexample: the claim says a local declared and assigned only
inside an `if` body whose condition is 1 is observable in the parent
afterward.  It is not: running `1 { y let 5 = } if` from the empty state
returns the state entirely unchanged — the new local `y` is discarded by the
copy-out merge (which only rewrites names pre-existing in the parent), so
`y` is just as undefined as in the condition-0 case. -/
theorem C4_counterexample :
    run 10 initState
      [Value.Int 1, Value.Operation Op.BlockStart, Value.Ident "y",
       Value.Keyword Keyword.Let, Value.Int 5, Value.Operation Op.Assign,
       Value.Operation Op.BlockEnd, Value.Keyword Keyword.If] =
      Except.ok initState ∧
    getVar initState "y" = Option.none :=
  ⟨rfl, rfl⟩

/-- C4, amended: a local declared and assigned only inside an `if` body is
observably absent in the parent afterward whether the condition is 0 or 1
(new locals of the nested context are always discarded); what does propagate
out of a taken conditional is: mutations of the parent's pre-existing locals
(each name of the parent's table is overwritten with the child's final value
for it) and the global table. -/
theorem C4_thm :
    (run 10 initState
      [Value.Int 0, Value.Operation Op.BlockStart, Value.Ident "y",
       Value.Keyword Keyword.Let, Value.Int 5, Value.Operation Op.Assign,
       Value.Operation Op.BlockEnd, Value.Keyword Keyword.If] =
      Except.ok initState) ∧
    (run 10 initState
      [Value.Int 1, Value.Operation Op.BlockStart, Value.Ident "y",
       Value.Keyword Keyword.Let, Value.Int 5, Value.Operation Op.Assign,
       Value.Operation Op.BlockEnd, Value.Keyword Keyword.If] =
      Except.ok initState) ∧
    ∀ (fuel : Nat) (st : InterpreterState) (b rest : List Value) (n : Int)
      (ch : InterpreterState) (m : List (String × Value)),
      st.delims = [] → st.stack = Value.Block b :: Value.Int n :: rest → n ≠ 0 →
      run fuel (childState st) b = Except.ok ch →
      mergeVars ch st.vars = some m →
      run (fuel + 1) st [Value.Keyword Keyword.If] =
        Except.ok { st with
          stack := rest, vars := m, globals := ch.globals, output := ch.output } ∧
      m.map Prod.fst = st.vars.map Prod.fst ∧
      ∀ p ∈ m, getVar ch p.1 = some p.2 := by
  refine ⟨rfl, rfl, ?_⟩
  intro fuel st b rest n ch m hd hs hn hrun hm
  obtain ⟨sk, vr, gl, dl, ef, out⟩ := st
  have hd' : dl = [] := hd
  subst hd'
  have hs' : sk = Value.Block b :: Value.Int n :: rest := hs
  subst hs'
  have hrun' : run fuel ⟨[], vr, gl, [], ef, out⟩ b = Except.ok ch := hrun
  have hm' : mergeVars ch vr = some m := hm
  refine ⟨?_, (mergeVars_spec ch vr m hm').1, (mergeVars_spec ch vr m hm').2⟩
  rw [run_singleton]
  simp [stepTok, getValue, getInt, intOfVal, resolveValue, childState, hn, hrun', hm']

/-- C4, witness for the general conjunct of the amended theorem: a taken
conditional with an empty body and no variables anywhere. -/
theorem C4_witness :
    run 2 { initState with stack := [Value.Block [], Value.Int 1] }
      [Value.Keyword Keyword.If] = Except.ok initState :=
  (C4_thm.2.2 1 { initState with stack := [Value.Block [], Value.Int 1] }
    [] [] 1 initState [] rfl rfl (by decide) rfl rfl).1

/-- C5, counterexample: the spec's script, lexed as written, neither
completes nor prints `6`.  The lexer swallows the `1` after `[` and the `]`
after `3` (the character terminating an operator or integer token is
consumed, not reprocessed), drops the trailing `println` still being
accumulated at end of input, and the very first token, the `let` keyword,
pops an identifier off the still-empty operand stack, so execution aborts
immediately with an `unwrap` panic. -/
theorem C5_counterexample :
    tokenize "let x 0 = x [1 2 3] { x x 1 + = } for x println" =
      Except.ok
        [Value.Keyword Keyword.Let, Value.Ident "x", Value.Int 0,
         Value.Operation Op.Assign, Value.Ident "x", Value.Operation Op.ArrayStart,
         Value.Int 2, Value.Int 3, Value.Operation Op.BlockStart, Value.Ident "x",
         Value.Ident "x", Value.Int 1, Value.Operation Op.Add,
         Value.Operation Op.Assign, Value.Operation Op.BlockEnd,
         Value.Keyword Keyword.For, Value.Ident "x"] ∧
    (tokenize "let x 0 = x [1 2 3] { x x 1 + = } for x println").bind
      (run 100 initState) = Except.error RunError.unwrapNone :=
  ⟨rfl, rfl⟩

/-- C5, amended: the scoping-copy-out scenario does hold once the script is
written the way the language actually works — declarations and the `for`
operands in postfix order, operator and bracket tokens separated by spaces
(the lexer consumes the character that terminates a token), a loop variable
distinct from the accumulator, and a trailing separator so the final
`println` is emitted: executing the lexed token sequence of
`x let 0 = [ 1 2 3 ] i { x x i + = } for x println` (with a final line
break) completes without error and prints `6` followed by a line break,
the loop-body mutation of the pre-existing `x` having persisted after the
loop. -/
theorem C5_thm :
    (tokenize "x let 0 = [ 1 2 3 ] i \x7b x x i + = \x7d for x println\n").bind
      (run 100 initState) =
      Except.ok { initState with vars := [("x", Value.Int 6)], output := "6\n" } :=
  rfl

/-- C6, counterexample: the for-loop body `{ y println y let 7 = }` over the
two-element array `[10 20]` prints `(ident: y)` on the first iteration (`y`
undefined) but `7` on the second — the local `y`, declared during iteration
one, is still visible at the start of iteration two, because the loop
creates one child context for the whole loop and re-runs the body in it,
rather than a fresh context per iteration. -/
theorem C6_counterexample :
    run 100 initState
      [Value.Operation Op.ArrayStart, Value.Int 10, Value.Int 20,
       Value.Operation Op.ArrayEnd, Value.Ident "i", Value.Operation Op.BlockStart,
       Value.Ident "y", Value.Keyword Keyword.PrintLn,
       Value.Ident "y", Value.Keyword Keyword.Let, Value.Int 7,
       Value.Operation Op.Assign,
       Value.Operation Op.BlockEnd, Value.Keyword Keyword.For] =
      Except.ok { initState with output := "(ident: y)\n7\n" } :=
  rfl

/-- C6, amended: one child execution context is created per for-loop, not
per iteration, and is re-used across all iterations (only the loop variable
is re-seeded), so a local newly declared during one iteration is visible at
the start of the next (the body `{ y println y let 7 = }` prints
`(ident: y)` only on the first iteration and `7` on the second); the child
context is destroyed only after the whole loop, discarding its new locals,
so `y` is absent from the parent afterward. -/
theorem C6_thm :
    run 100 initState
      [Value.Operation Op.ArrayStart, Value.Int 10, Value.Int 20,
       Value.Operation Op.ArrayEnd, Value.Ident "i", Value.Operation Op.BlockStart,
       Value.Ident "y", Value.Keyword Keyword.PrintLn,
       Value.Ident "y", Value.Keyword Keyword.Let, Value.Int 7,
       Value.Operation Op.Assign,
       Value.Operation Op.BlockEnd, Value.Keyword Keyword.For] =
      Except.ok { initState with output := "(ident: y)\n7\n" } ∧
    getVar { initState with output := "(ident: y)\n7\n" } "y" = Option.none ∧
    getVar { initState with output := "(ident: y)\n7\n" } "i" = Option.none :=
  ⟨rfl, rfl, rfl⟩

/-- C7, counterexample: a user function whose body merely fetches a
caller-local name does not fail at all.  With caller-local `x = 5`, calling
`fn () { x println }` completes without any error and prints `(ident: x)` —
the unresolved identifier token itself, not the caller's `5` — because
`get_value` returns an unresolvable identifier unchanged instead of
raising an undefined-variable error. -/
theorem C7_counterexample :
    run 100 initState
      [Value.Ident "x", Value.Keyword Keyword.Let, Value.Int 5,
       Value.Operation Op.Assign,
       Value.Fn [] [Value.Ident "x", Value.Keyword Keyword.PrintLn],
       Value.Operation Op.CallFn] =
      Except.ok { initState with
        vars := [("x", Value.Int 5)], output := "(ident: x)\n" } :=
  rfl

/-- C7, amended: a function body has no implicit lexical closure over the
caller's locals, but the failure mode depends on how the body uses the name:
a use that requires an integer value (here `x 1 +`) aborts the run with an
`unwrap` panic on the failed variable lookup, while a mere value fetch
(here `x println`) silently yields the unresolved identifier token — it
prints `(ident: x)`, not the caller's `5`, and no error is raised. -/
theorem C7_thm :
    run 100 initState
      [Value.Ident "x", Value.Keyword Keyword.Let, Value.Int 5,
       Value.Operation Op.Assign,
       Value.Fn [] [Value.Ident "x", Value.Int 1, Value.Operation Op.Add],
       Value.Operation Op.CallFn] =
      Except.error RunError.unwrapNone ∧
    run 100 initState
      [Value.Ident "x", Value.Keyword Keyword.Let, Value.Int 5,
       Value.Operation Op.Assign,
       Value.Fn [] [Value.Ident "x", Value.Keyword Keyword.PrintLn],
       Value.Operation Op.CallFn] =
      Except.ok { initState with
        vars := [("x", Value.Int 5)], output := "(ident: x)\n" } :=
  ⟨rfl, rfl⟩

/-- C8, counterexample: the input `+3` does not yield an add token followed
by an integer token; the `3` terminates the operator token and is then
consumed outright (the lexer's `continue` moves to the next character), so
only the add token is emitted. -/
theorem C8_counterexample :
    tokenize "+3" = Except.ok [Value.Operation Op.Add] ∧
    tokenize "+3" ≠ Except.ok [Value.Operation Op.Add, Value.Int 3] := by
  refine ⟨rfl, ?_⟩
  intro h
  rw [show tokenize "+3" = Except.ok [Value.Operation Op.Add] from rfl] at h
  simp at h

/-- C8, amended: in the lexer, a `=` immediately following one of `+ - * /`
folds into the single corresponding compound-assign token (no token is
emitted yet); any other character following an operator token terminates the
operator, emits it, and is itself consumed — discarded, not reprocessed from
the idle state — so `+3` yields only an add token, while `+= ` yields the
single add-assign token. -/
theorem C8_thm (buf : String) (c : Char) (hne : c ≠ '=') :
    (lexStep (Value.Operation Op.Add) buf '=' =
        Except.ok (Value.Operation Op.AddAssign, buf, []) ∧
      lexStep (Value.Operation Op.Sub) buf '=' =
        Except.ok (Value.Operation Op.SubAssign, buf, []) ∧
      lexStep (Value.Operation Op.Mul) buf '=' =
        Except.ok (Value.Operation Op.MulAssign, buf, []) ∧
      lexStep (Value.Operation Op.Div) buf '=' =
        Except.ok (Value.Operation Op.DivAssign, buf, [])) ∧
    (∀ op : Op, lexStep (Value.Operation op) buf c =
      Except.ok (Value.None, "", [Value.Operation op])) ∧
    tokenize "+3" = Except.ok [Value.Operation Op.Add] ∧
    tokenize "+= " = Except.ok [Value.Operation Op.AddAssign] := by
  refine ⟨⟨rfl, rfl, rfl, rfl⟩, ?_, rfl, rfl⟩
  intro op
  simp [lexStep, hne]

/-- C8, witness: the digit `3` after a `+` emits the add token and is
consumed. -/
theorem C8_witness :
    lexStep (Value.Operation Op.Add) "" '3' =
      Except.ok (Value.None, "", [Value.Operation Op.Add]) :=
  (C8_thm "" '3' (by decide)).2.1 Op.Add
